import Mathlib

/-!
Verification of the SQLiteHelper access layer (src/SQLiteHelper.py) against
its natural-language specification.

The Python module is shallowly embedded: SQL statement texts are Lean
`String`s built exactly as the source builds them; Python scalar values are
the inductive `PyVal`; the sqlite engine is abstracted as an oracle that,
given a statement text, optional positional parameters and the current
(uncommitted) database state, either fails with an error message or returns
the new state together with the pending result rows.  A connection carries
two database states: `committed` (what `commit` has persisted) and `current`
(the state the cursor operates on); `commit` copies current into committed
and `rollback` copies committed into current, which is exactly the
transactional contract the source relies on.

Python functions that can propagate an exception to their caller are
embedded with an `Except` result; functions whose every exception is caught
inside (such as `execute_query`, whose handler catches bare `Exception`)
are embedded as total functions.
-/

namespace SQLiteHelper

/-- A Python scalar value as it appears in this module: `str`, `int`,
`bool`, or `None`. -/
inductive PyVal where
  | pstr (s : String)
  | pint (i : Int)
  | pbool (b : Bool)
  | pnone
  deriving Repr, DecidableEq

/-- A result row as the sqlite cursor yields it: an ordered sequence of
(column name, value) pairs. -/
abbrev Row : Type := List (String × PyVal)

/-- The visible database state: the rows of the single managed table. -/
abbrev DB : Type := List Row

/-- Number of rows in the table. -/
def rowCount (db : DB) : Nat := db.length

/-- A connection: the state `commit` has persisted and the state the cursor
currently sees.  `cursor.execute` changes `current`; `conn.commit()` copies
`current` into `committed`; `conn.rollback()` copies `committed` back into
`current`. -/
structure Conn where
  committed : DB
  current : DB
  deriving Repr, DecidableEq

/-- The engine oracle: statement text and optional positional parameters,
applied to the current state, either raise (error message) or produce the
new current state and the rows a subsequent `fetchall` returns. -/
abbrev Engine : Type := String → Option (List PyVal) → DB → Except String (DB × List Row)

/-- The helper object: table/database name, debug flag, connection. -/
structure Helper where
  db_name : String
  debug : Bool
  conn : Conn
  deriving Repr, DecidableEq

/-- The single-quote character (written by code, not by name, to keep SQL
texts readable). -/
def sq : String := "\x27"

/-- Python `sep.join(xs)`. -/
def pyJoin (sep : String) : List String → String
  | [] => ""
  | [x] => x
  | x :: y :: xs => x ++ sep ++ pyJoin sep (y :: xs)

/-- Python `s.rstrip(chars)`: drop from the right every character that is a
member of `chars`. -/
def pyRstrip (s : String) (chars : List Char) : String :=
  ⟨(s.data.reverse.dropWhile (fun c => chars.contains c)).reverse⟩

/-- Python `s.replace("*", "")`: delete every asterisk. -/
def pyStripStar (s : String) : String := ⟨s.data.filter (fun c => c != '*')⟩

/-- Python `s.split(' ')[0]`: the characters before the first space. -/
def pySplitHead (s : String) : String := ⟨s.data.takeWhile (fun c => c != ' ')⟩

/-- Python `key[0] == '*'` guarded by the fact that configparser never
yields an empty key (on the empty string the source would raise). -/
def startsStar (s : String) : Bool :=
  match s.data with
  | [] => false
  | c :: _ => c == '*'

/-- Python dict assignment `m[k] = v` on an insertion-ordered dict seen as
an association list: an existing key keeps its position and gets the new
value, a fresh key is appended at the end. -/
def updateAssoc (m : List (String × PyVal)) (k : String) (v : PyVal) :
    List (String × PyVal) :=
  if m.any (fun kv => kv.1 == k) then
    m.map (fun kv => if kv.1 == k then (k, v) else kv)
  else
    m ++ [(k, v)]

/-- Python dict lookup `m[k]` (the value of the entry with key `k`). -/
def lookupAssoc (m : List (String × PyVal)) (k : String) : Option PyVal :=
  match m with
  | [] => none
  | kv :: rest => if kv.1 == k then some kv.2 else lookupAssoc rest k

/-- Python `dict(pairs)`: build an insertion-ordered dict from a sequence
of pairs, later duplicates overwriting earlier ones in place. -/
def pyDict (r : Row) : List (String × PyVal) :=
  r.foldl (fun m kv => updateAssoc m kv.1 kv.2) []

/-! ## Identifier sanitizer (src/SQLiteHelper.py lines 46-51)

`sanitize_identifier` runs `re.match(r'^[A-Za-z_][A-Za-z0-9_]*$', s)`.
Python `re.match` anchors at position 0; without `re.MULTILINE` the final
`$` matches at the end of the string or just before a newline that is the
last character.  The character classes are the ASCII letter/digit ranges
plus underscore. -/

/-- `[A-Za-z_]`. -/
def isIdentStart (c : Char) : Bool := c.isAlpha || c == '_'

/-- `[A-Za-z0-9_]`. -/
def isIdentChar (c : Char) : Bool := c.isAlphanum || c == '_'

/-- Python `$` (no MULTILINE): succeeds when the remaining input is empty
or is exactly one final newline. -/
def pyDollar (l : List Char) : Bool := l == [] || l == ['\n']

/-- Matching of `^[A-Za-z_][A-Za-z0-9_]*$` with Python semantics: one
start character, then the maximal run of identifier characters, then `$`.
(The maximal run is exact here: a shorter run leaves an identifier
character at the match position, which `$` — empty or `'\n'` — cannot
accept, so no backtracking can succeed where the greedy run fails.) -/
def reMatchIdent (l : List Char) : Bool :=
  match l with
  | [] => false
  | c :: rest => isIdentStart c && pyDollar (rest.dropWhile isIdentChar)

/-- `sanitize_identifier`: return the identifier unchanged when the regex
matches, raise `ValueError` otherwise. -/
def sanitize_identifier (s : String) : Except String String :=
  if reMatchIdent s.data then .ok s else .error ("Invalid identifier: " ++ s)

/-- The specification's reading of `^[A-Za-z_][A-Za-z0-9_]*$` as a whole-
string pattern (no newline allowance): used to compare the spec's wording
with what the source accepts. -/
def specIdentPattern (l : List Char) : Bool :=
  match l with
  | [] => false
  | c :: rest => isIdentStart c && rest.all isIdentChar

/-! ## Schema translation and table creation
(src/SQLiteHelper.py lines 38-43 and 70-95) -/

/-- `_parse_table_config`: each config entry `(key, value)` becomes the
column definition `key.replace("*", "") + " " + value` paired with the
primary-key marker `key[0] == '*'`. -/
def _parse_table_config (cfg : List (String × String)) : List (String × Bool) :=
  cfg.map (fun kv => (pyStripStar kv.1 ++ " " ++ kv.2, startsStar kv.1))

/-- The statement text `__create_table` builds: start from
`CREATE TABLE IF NOT EXISTS <name> (`, append `<def>, ` for every layout
line, collect `line[0].split(' ')[0]` of every starred line; then either
append `PRIMARY KEY (<pk1>, ...)` or `rstrip(', ')`, and close with `)`. -/
def create_table_command (table_name : String) (layout : List (String × Bool)) : String :=
  let base := "CREATE TABLE IF NOT EXISTS " ++ table_name ++ " ("
  let withCols := layout.foldl (fun acc line => acc ++ line.1 ++ ", ") base
  let pks := layout.foldl
    (fun acc line => if line.2 then acc ++ [pySplitHead line.1] else acc) []
  let s :=
    if pks.isEmpty then pyRstrip withCols [',', ' ']
    else withCols ++ "PRIMARY KEY (" ++ pyJoin ", " pks ++ ")"
  s ++ ")"

/-! ## Query executor (src/SQLiteHelper.py lines 109-140)

`execute_query` wraps `cursor.execute`, `conn.commit()` and
`cursor.fetchall()` in one `try` whose handler catches bare `Exception`,
rolls back and returns `([], False)`.  The three fallible engine steps are
parameters: `execR` is the oracle already applied to the statement and
parameters, while `commitErr`/`fetchErr` inject an exception into the
commit or fetch step (`none` = the step succeeds). -/

/-- `execute_query`.  Returns the connection after the call together with
the Python return value `(rows, flag)`. -/
def execute_query (c : Conn) (execR : DB → Except String (DB × List Row))
    (commitErr fetchErr : Option String) :
    Conn × List (List (String × PyVal)) × Bool :=
  match execR c.current with
  | .error _ =>
    -- the execute step raised: rollback, return ([], False)
    ({ committed := c.committed, current := c.committed }, [], false)
  | .ok (cur', rows) =>
    match commitErr with
    | some _ =>
      -- commit raised: rollback discards the pending write
      ({ committed := c.committed, current := c.committed }, [], false)
    | none =>
      match fetchErr with
      | some _ =>
        -- fetchall raised after the commit: the rollback is a no-op
        ({ committed := cur', current := cur' }, [], false)
      | none =>
        ({ committed := cur', current := cur' }, rows.map pyDict, true)

/-- Python truthiness of the 2-tuple `(rows, flag)`: a nonempty tuple is
always truthy, whatever its components. -/
def pyTruthyPair {α β : Type} (_ : α × β) : Bool := true

/-! ## Python repr, as f-strings in the aggregate operations use it -/

/-- `repr` of a Python string: quote with `'`, or with `"` when the text
contains `'` but no `"`; escape the backslash, the chosen quote and the
common control characters. -/
def pyReprStr (s : String) : String :=
  let q : Char := if s.data.contains '\x27' && !(s.data.contains '"') then '"' else '\x27'
  let body := s.data.foldl
    (fun acc c =>
      if c == '\\' then acc ++ "\\\\"
      else if c == q then acc ++ "\\" ++ String.singleton q
      else if c == '\n' then acc ++ "\\n"
      else if c == '\r' then acc ++ "\\r"
      else if c == '\t' then acc ++ "\\t"
      else acc ++ String.singleton c) ""
  String.singleton q ++ body ++ String.singleton q

/-- `repr` of a scalar. -/
def pyReprVal : PyVal → String
  | .pstr s => pyReprStr s
  | .pint i => toString i
  | .pbool b => if b then "True" else "False"
  | .pnone => "None"

/-- `repr` of a dict. -/
def pyReprDict (m : List (String × PyVal)) : String :=
  "\x7b" ++ pyJoin ", " (m.map (fun kv => pyReprStr kv.1 ++ ": " ++ pyReprVal kv.2)) ++ "\x7d"

/-- `repr` of a list of dicts. -/
def pyReprRows (rs : List (List (String × PyVal))) : String :=
  "[" ++ pyJoin ", " (rs.map pyReprDict) ++ "]"

/-- `repr` of the `(rows, flag)` pair `execute_query` returns. -/
def pyReprResult (p : List (List (String × PyVal)) × Bool) : String :=
  "(" ++ pyReprRows p.1 ++ ", " ++ (if p.2 then "True" else "False") ++ ")"

/-! ## CRUD / aggregate operations (src/SQLiteHelper.py lines 142-352) -/

/-- The statement `select_data` builds. -/
def select_query (name : String) (cols : List String) (whereC : Option String) : String :=
  let q := "SELECT " ++ pyJoin ", " cols ++ " FROM " ++ name
  match whereC with
  | some w => q ++ " WHERE " ++ w
  | none => q

/-- `select_data`: build the statement, run it through `execute_query`,
then `return data if data else ([], False)` — the pair is always truthy,
so the result of `execute_query` is returned as is.  The surrounding
`try/except` is unreachable (`execute_query` never raises). -/
def select_data (h : Helper) (eng : Engine) (ce fe : Option String)
    (cols : List String) (whereC : Option String) :
    Helper × List (List (String × PyVal)) × Bool :=
  let q := select_query h.db_name cols whereC
  let r := execute_query h.conn (eng q none) ce fe
  if pyTruthyPair (r.2.1, r.2.2) then ({ h with conn := r.1 }, r.2.1, r.2.2)
  else ({ h with conn := r.1 }, [], false)

/-- Value formatting in `insert_data`: strings single-quoted, `None` as
`NULL`, anything else via `str(value)`. -/
def formatValue : PyVal → String
  | .pstr s => sq ++ s ++ sq
  | .pnone => "NULL"
  | .pint i => toString i
  | .pbool b => if b then "True" else "False"

/-- The statement `insert_data` builds: every value inlined, no bind
parameters.  The formatted-value list is accumulated by a loop, as in the
source. -/
def insert_query (name : String) (cols : List String) (vals : List PyVal) : String :=
  let columns := pyJoin ", " cols
  let formatted := vals.foldl (fun acc v => acc ++ [formatValue v]) []
  let values := pyJoin ", " formatted
  "INSERT INTO " ++ name ++ " (" ++ columns ++ ") VALUES (" ++ values ++ ")"

/-- `insert_data`: runs `self.cursor.execute(query)` directly — not
`execute_query` — and never commits; its `except Exception` handler rolls
back and reports failure. -/
def insert_data (h : Helper) (eng : Engine) (cols : List String) (vals : List PyVal) :
    Helper × String × Bool :=
  let q := insert_query h.db_name cols vals
  match eng q none h.conn.current with
  | .ok (cur', _) =>
    ({ h with conn := { committed := h.conn.committed, current := cur' } },
      "Data inserted successfully.", true)
  | .error e =>
    ({ h with conn := { committed := h.conn.committed, current := h.conn.committed } },
      "Insertion failed, rolled back. Error: " ++ e, false)

/-- The statement `delete_data` builds: the column name is interpolated
raw, the value is a bind parameter. -/
def delete_query (name : String) (column_name : String) : String :=
  "DELETE FROM " ++ name ++ " WHERE " ++ column_name ++ " = ?"

/-- `delete_data`: run the statement through `execute_query` with the value
bound positionally, ignore its `(rows, flag)` result, and return the fixed
success message with `True`.  The `except` clause is unreachable because
`execute_query` never raises. -/
def delete_data (h : Helper) (eng : Engine) (ce fe : Option String)
    (column_name : String) (value_to_delete : PyVal) : Helper × String × Bool :=
  let q := delete_query h.db_name column_name
  let r := execute_query h.conn (eng q (some [value_to_delete])) ce fe
  ({ h with conn := r.1 }, "Data deleted successfully", true)

/-- One `SET` item in `update_data`: `key='value'`, `key=NULL`, or
`key=value` for non-string non-None values. -/
def setPart (k : String) (v : PyVal) : String :=
  match v with
  | .pstr s => k ++ "=" ++ sq ++ s ++ sq
  | .pnone => k ++ "=NULL"
  | .pint i => k ++ "=" ++ toString i
  | .pbool b => k ++ "=" ++ (if b then "True" else "False")

/-- The merge loop of `update_data`: `merged_dict = {}` then
`merged_dict.update(d)` for each dictionary in order. -/
def update_merged (ds : List (List (String × PyVal))) : List (String × PyVal) :=
  ds.foldl (fun m d => d.foldl (fun m kv => updateAssoc m kv.1 kv.2) m) []

/-- The `SET`-parts loop of `update_data`. -/
def update_set_parts (m : List (String × PyVal)) : List String :=
  m.foldl (fun acc kv => acc ++ [setPart kv.1 kv.2]) []

/-- The statement `update_data` builds. -/
def update_query (name : String) (ds : List (List (String × PyVal)))
    (where_clause : String) : String :=
  let set_clause := pyJoin ", " (update_set_parts (update_merged ds))
  "UPDATE " ++ name ++ " SET " ++ set_clause ++ " WHERE " ++ where_clause

/-- `update_data`: run the statement through `execute_query`, ignore its
result, return the fixed success message with `True` (the `except` clause
is unreachable, as in `delete_data`). -/
def update_data (h : Helper) (eng : Engine) (ce fe : Option String)
    (ds : List (List (String × PyVal))) (where_clause : String) : Helper × String × Bool :=
  let q := update_query h.db_name ds where_clause
  let r := execute_query h.conn (eng q none) ce fe
  ({ h with conn := r.1 }, "Data updated successfully.", true)

/-- The statement `select_min` builds. -/
def select_min_query (name : String) (column_name : String) : String :=
  "SELECT MIN(" ++ column_name ++ ") FROM " ++ name

/-- `select_min`: run the statement through `execute_query` and format the
whole `(rows, flag)` pair into the returned message; always `True`. -/
def select_min (h : Helper) (eng : Engine) (ce fe : Option String)
    (column_name : String) : Helper × String × Bool :=
  let q := select_min_query h.db_name column_name
  let r := execute_query h.conn (eng q none) ce fe
  ({ h with conn := r.1 },
    "Minimum from " ++ column_name ++ ": " ++ pyReprResult (r.2.1, r.2.2) ++ ".", true)

/-- The statement `select_max` builds. -/
def select_max_query (name : String) (column_name : String) : String :=
  "SELECT MAX(" ++ column_name ++ ") FROM " ++ name

/-- `select_max`, exactly as `select_min` with MAX. -/
def select_max (h : Helper) (eng : Engine) (ce fe : Option String)
    (column_name : String) : Helper × String × Bool :=
  let q := select_max_query h.db_name column_name
  let r := execute_query h.conn (eng q none) ce fe
  ({ h with conn := r.1 },
    "Maximum from " ++ column_name ++ ": " ++ pyReprResult (r.2.1, r.2.2) ++ ".", true)

/-- The statement `select_avg` builds. -/
def select_avg_query (name : String) (column_name : String) : String :=
  "SELECT AVG(" ++ column_name ++ ") FROM " ++ name

/-- `select_avg`, exactly as `select_min` with AVG. -/
def select_avg (h : Helper) (eng : Engine) (ce fe : Option String)
    (column_name : String) : Helper × String × Bool :=
  let q := select_avg_query h.db_name column_name
  let r := execute_query h.conn (eng q none) ce fe
  ({ h with conn := r.1 },
    "Average from " ++ column_name ++ ": " ++ pyReprResult (r.2.1, r.2.2) ++ ".", true)

/-- The statement `count` builds. -/
def count_query (name : String) (where_clause : Option String) : String :=
  let q := "SELECT COUNT(*) as total FROM " ++ name
  match where_clause with
  | some w => q ++ " WHERE " ++ w
  | none => q

/-- `count`: run the statement through `execute_query`, then
`return data[0][0]['total'] if data else 0`.  `data` is the always-truthy
pair, so the subscripts are always evaluated: `data[0]` is the row list and
`data[0][0]` raises `IndexError` when it is empty (there is no enclosing
`try`), and the `['total']` lookup raises `KeyError` when absent.  The
`else 0` branch is kept as dead code, as in the source. -/
def count (h : Helper) (eng : Engine) (ce fe : Option String)
    (where_clause : Option String) : Except String (Helper × PyVal) :=
  let q := count_query h.db_name where_clause
  let r := execute_query h.conn (eng q none) ce fe
  if pyTruthyPair (r.2.1, r.2.2) then
    match r.2.1 with
    | [] => .error "IndexError: list index out of range"
    | row :: _ =>
      match lookupAssoc row "total" with
      | some v => .ok ({ h with conn := r.1 }, v)
      | none => .error "KeyError: total"
  else .ok ({ h with conn := r.1 }, .pint 0)

/-! ## General lemmas -/

/-- Strings with the same character data are equal. -/
theorem strExt {s t : String} (h : s.data = t.data) : s = t := by
  cases s; cases t; exact congrArg String.mk h

/-- `pyDollar` after the maximal identifier-character run: the run reaches
the end, or it reaches a final newline. -/
theorem pyDollar_dropWhile (rest : List Char) :
    pyDollar (rest.dropWhile isIdentChar) = true ↔
      (rest.all isIdentChar = true ∨
        ∃ r, rest = r ++ ['\n'] ∧ r.all isIdentChar = true) := by
  induction rest with
  | nil =>
    simp [pyDollar]
  | cons a t ih =>
    by_cases ha : isIdentChar a = true
    · rw [List.dropWhile_cons_of_pos ha]
      constructor
      · intro h
        rcases ih.mp h with hall | ⟨r, hr, hall⟩
        · exact Or.inl (by simp [List.all_cons, ha, hall])
        · exact Or.inr ⟨a :: r, by simp [hr], by simp [List.all_cons, ha, hall]⟩
      · intro h
        apply ih.mpr
        rcases h with hall | ⟨r, hr, hall⟩
        · simp only [List.all_cons, Bool.and_eq_true] at hall
          exact Or.inl hall.2
        · cases r with
          | nil =>
            simp only [List.nil_append, List.cons.injEq] at hr
            rw [hr.1] at ha
            simp [isIdentChar, Char.isAlphanum, Char.isAlpha, Char.isUpper,
              Char.isLower, Char.isDigit] at ha
          | cons b r' =>
            simp only [List.cons_append, List.cons.injEq] at hr
            simp only [List.all_cons, Bool.and_eq_true] at hall
            exact Or.inr ⟨r', hr.2, hall.2⟩
    · rw [List.dropWhile_cons_of_neg ha]
      have hdoll : pyDollar (a :: t) = true ↔ (a = '\n' ∧ t = []) := by
        simp only [pyDollar, Bool.or_eq_true, beq_iff_eq]
        constructor
        · rintro (h | h)
          · exact absurd h (by simp)
          · simpa [List.cons.injEq, eq_comm] using h
        · rintro ⟨h1, h2⟩
          exact Or.inr (by simp [h1, h2])
      rw [hdoll]
      constructor
      · rintro ⟨h1, h2⟩
        exact Or.inr ⟨[], by simp [h1, h2], rfl⟩
      · rintro (hall | ⟨r, hr, hall⟩)
        · simp only [List.all_cons, Bool.and_eq_true] at hall
          exact absurd hall.1 ha
        · cases r with
          | nil =>
            simp only [List.nil_append, List.cons.injEq] at hr
            exact ⟨hr.1, hr.2⟩
          | cons b r' =>
            simp only [List.cons_append, List.cons.injEq] at hr
            simp only [List.all_cons, Bool.and_eq_true] at hall
            rw [hr.1] at ha
            exact absurd hall.1 ha

/-- The source's matcher accepts exactly the spec pattern's language plus
the same words with one trailing newline. -/
theorem reMatchIdent_iff (l : List Char) :
    reMatchIdent l = true ↔
      (specIdentPattern l = true ∨
        ∃ core, l = core ++ ['\n'] ∧ specIdentPattern core = true) := by
  cases l with
  | nil =>
    constructor
    · intro h; simp [reMatchIdent] at h
    · rintro (h | ⟨core, hc, _⟩)
      · simp [specIdentPattern] at h
      · exact absurd hc (by simp)
  | cons c rest =>
    simp only [reMatchIdent, specIdentPattern, Bool.and_eq_true]
    constructor
    · rintro ⟨hs, hd⟩
      rcases (pyDollar_dropWhile rest).mp hd with hall | ⟨r, hr, hall⟩
      · exact Or.inl ⟨hs, hall⟩
      · refine Or.inr ⟨c :: r, by simp [hr], ?_⟩
        simp [specIdentPattern, hs, hall]
    · rintro (⟨hs, hall⟩ | ⟨core, hc, hcore⟩)
      · exact ⟨hs, (pyDollar_dropWhile rest).mpr (Or.inl hall)⟩
      · cases core with
        | nil =>
          simp [specIdentPattern] at hcore
        | cons c2 core' =>
          simp only [List.cons_append, List.cons.injEq] at hc
          simp only [specIdentPattern, Bool.and_eq_true] at hcore
          rw [hc.1]
          exact ⟨hcore.1, (pyDollar_dropWhile rest).mpr (Or.inr ⟨core', hc.2, hcore.2⟩)⟩

/-- The column segment `__create_table`'s loop accumulates: every
definition followed by `", "`. -/
def colTrail : List String → String
  | [] => ""
  | d :: ds => d ++ ", " ++ colTrail ds

/-- The column loop of `__create_table` in closed form. -/
theorem foldl_cols (layout : List (String × Bool)) (base : String) :
    layout.foldl (fun acc line => acc ++ line.1 ++ ", ") base =
      base ++ colTrail (layout.map (fun l => l.1)) := by
  induction layout generalizing base with
  | nil => simp [colTrail]
  | cons l ls ih =>
    simp only [List.foldl_cons, List.map_cons, colTrail]
    rw [ih]
    simp [String.append_assoc]

/-- The accumulated column segment is the comma join plus one trailing
separator. -/
theorem colTrail_eq_join (d : String) (ds : List String) :
    colTrail (d :: ds) = pyJoin ", " (d :: ds) ++ ", " := by
  induction ds generalizing d with
  | nil => simp [colTrail, pyJoin]
  | cons y ys ih =>
    have h1 : colTrail (d :: y :: ys) = d ++ ", " ++ colTrail (y :: ys) := rfl
    rw [h1, ih y]
    simp [pyJoin, String.append_assoc]

/-- The primary-key loop of `__create_table` in closed form. -/
theorem foldl_pks (layout : List (String × Bool)) (acc : List String) :
    layout.foldl (fun acc line => if line.2 then acc ++ [pySplitHead line.1] else acc) acc =
      acc ++ (layout.filter (fun l => l.2)).map (fun l => pySplitHead l.1) := by
  induction layout generalizing acc with
  | nil => simp
  | cons l ls ih =>
    by_cases h : l.2 = true <;>
      simp [List.foldl_cons, List.filter_cons, h, ih]

theorem dropWhile_append_all {p : Char → Bool} (l1 l2 : List Char)
    (h : ∀ c ∈ l1, p c = true) : (l1 ++ l2).dropWhile p = l2.dropWhile p := by
  induction l1 with
  | nil => rfl
  | cons a t ih =>
    simp only [List.cons_append, List.dropWhile_cons, h a (List.mem_cons_self a t)]
    exact ih (fun c hc => h c (List.mem_cons_of_mem a hc))

theorem takeWhile_append_all {p : Char → Bool} (l1 l2 : List Char)
    (h : ∀ c ∈ l1, p c = true) : (l1 ++ l2).takeWhile p = l1 ++ l2.takeWhile p := by
  induction l1 with
  | nil => rfl
  | cons a t ih =>
    simp only [List.cons_append, List.takeWhile_cons, h a (List.mem_cons_self a t)]
    rw [ih (fun c hc => h c (List.mem_cons_of_mem a hc))]
    simp

/-- `rstrip` ignores an appended suffix made entirely of stripped
characters. -/
theorem pyRstrip_append_all (s t : String) (chars : List Char)
    (h : ∀ c ∈ t.data, chars.contains c = true) :
    pyRstrip (s ++ t) chars = pyRstrip s chars := by
  apply strExt
  simp only [pyRstrip, String.data_append, List.reverse_append]
  rw [dropWhile_append_all _ _ (fun c hc => h c (List.mem_reverse.mp hc))]

/-- `rstrip` is the identity when the last character is not stripped. -/
theorem pyRstrip_no_strip (s : String) (chars : List Char)
    (h : ∀ c, s.data.getLast? = some c → chars.contains c = false) :
    pyRstrip s chars = s := by
  apply strExt
  simp only [pyRstrip]
  cases hrev : s.data.reverse with
  | nil =>
    simp [List.reverse_eq_nil_iff.mp hrev]
  | cons c rest =>
    have hlast : s.data.getLast? = some c := by
      rw [← List.head?_reverse, hrev]
      rfl
    simp only [List.dropWhile_cons, h c hlast]
    simp only [Bool.false_eq_true, if_false]
    rw [← hrev, List.reverse_reverse]

theorem getLast?_append_right (l₁ l₂ : List Char) (h : l₂ ≠ []) :
    (l₁ ++ l₂).getLast? = l₂.getLast? := by
  rw [List.getLast?_append]
  cases hl : l₂.getLast? with
  | none => exact absurd (List.getLast?_eq_none_iff.mp hl) h
  | some c => rfl

theorem pyJoin_data_ne_nil (y : String) (ys : List String) (h : y.data ≠ []) :
    (pyJoin ", " (y :: ys)).data ≠ [] := by
  cases ys with
  | nil => simpa [pyJoin]
  | cons z zs =>
    simp only [pyJoin, String.data_append]
    intro hc
    rcases List.append_eq_nil.mp hc with ⟨hc1, _⟩
    rcases List.append_eq_nil.mp hc1 with ⟨hy, _⟩
    exact h hy

/-- The last character of a comma join is the last character of one of the
joined pieces. -/
theorem pyJoin_getLast? (x : String) (ds : List String)
    (h : ∀ e ∈ x :: ds, e.data ≠ []) :
    ∃ e ∈ x :: ds, (pyJoin ", " (x :: ds)).data.getLast? = e.data.getLast? := by
  induction ds generalizing x with
  | nil => exact ⟨x, List.mem_cons_self x [], rfl⟩
  | cons y ys ih =>
    obtain ⟨e, he, heq⟩ := ih y (fun e he' => h e (List.mem_cons_of_mem x he'))
    refine ⟨e, List.mem_cons_of_mem x he, ?_⟩
    simp only [pyJoin, String.data_append]
    rw [List.append_assoc,
      getLast?_append_right _ _ ?_, getLast?_append_right _ _ ?_]
    · exact heq
    · exact pyJoin_data_ne_nil y ys (h y (List.mem_cons_of_mem x (List.mem_cons_self y ys)))
    · intro hc
      rcases List.append_eq_nil.mp hc with ⟨-, hc2⟩
      exact pyJoin_data_ne_nil y ys
        (h y (List.mem_cons_of_mem x (List.mem_cons_self y ys))) hc2

/-- A column definition ends with the last character of its type text. -/
theorem def_getLast? (n ty : String) (hty : ty.data ≠ []) :
    (n ++ " " ++ ty).data.getLast? = ty.data.getLast? := by
  simp only [String.data_append]
  exact getLast?_append_right _ _ hty

/-- `split(' ')[0]` of `<name> <type>` recovers the name when the name
contains no space. -/
theorem pySplitHead_def (n ty : String) (h : ∀ c ∈ n.data, c ≠ ' ') :
    pySplitHead (n ++ " " ++ ty) = n := by
  apply strExt
  simp only [pySplitHead, String.data_append]
  rw [List.append_assoc,
    takeWhile_append_all _ _ (fun c hc => by simpa using h c hc)]
  simp [List.takeWhile_cons]

/-! ## Dict-update lemmas (for the `update_data` merge loop) -/

/-- `m[k] = v` keeps the key list intact when the key exists, appends it
otherwise; either way key uniqueness is preserved. -/
theorem updateAssoc_keys_nodup (m : List (String × PyVal)) (k : String) (v : PyVal)
    (h : (m.map Prod.fst).Nodup) : ((updateAssoc m k v).map Prod.fst).Nodup := by
  unfold updateAssoc
  by_cases hc : m.any (fun kv => kv.1 == k) = true
  · rw [if_pos hc]
    have hkeys : (m.map (fun kv => if kv.1 == k then (k, v) else kv)).map Prod.fst =
        m.map Prod.fst := by
      rw [List.map_map]
      apply List.map_congr_left
      intro kv _
      by_cases hk : (kv.1 == k) = true
      · simp [Function.comp, hk, eq_of_beq hk]
      · simp [Function.comp, hk]
    rw [hkeys]
    exact h
  · rw [if_neg hc, List.map_append]
    refine h.append (List.nodup_singleton k) ?_
    intro a ha hb
    simp only [List.map_cons, List.map_nil, List.mem_singleton] at hb
    subst hb
    obtain ⟨kv, hkv, hfst⟩ := List.mem_map.mp ha
    exact hc (List.any_eq_true.mpr ⟨kv, hkv, by simp [hfst]⟩)

/-- Assigning key `k` does not change the entries of a different key. -/
theorem filter_updateAssoc_ne (m : List (String × PyVal)) (k : String) (v : PyVal)
    (c : String) (hne : k ≠ c) :
    (updateAssoc m k v).filter (fun kv => kv.1 == c) =
      m.filter (fun kv => kv.1 == c) := by
  have hmap : ∀ (l : List (String × PyVal)),
      (l.map (fun kv => if kv.1 == k then (k, v) else kv)).filter
          (fun kv => kv.1 == c) =
        l.filter (fun kv => kv.1 == c) := by
    intro l
    induction l with
    | nil => rfl
    | cons kv rest ih =>
      by_cases hk : (kv.1 == k) = true
      · have hkey : kv.1 = k := eq_of_beq hk
        have h1 : (((k, v) : String × PyVal).1 == c) = false := by simp [hne]
        have h2 : (kv.1 == c) = false := by simp [hkey, hne]
        simp only [List.map_cons, if_pos hk, List.filter_cons, h1, h2,
          Bool.false_eq_true, if_false]
        exact ih
      · simp only [List.map_cons, if_neg hk, List.filter_cons]
        cases h2 : (kv.1 == c) with
        | true => simp only [if_true]; rw [ih]
        | false => simp only [Bool.false_eq_true, if_false]; exact ih
  unfold updateAssoc
  by_cases hc : m.any (fun kv => kv.1 == k) = true
  · rw [if_pos hc]
    exact hmap m
  · rw [if_neg hc, List.filter_append]
    have h1 : (((k, v) : String × PyVal).1 == c) = false := by simp [hne]
    simp [h1]

/-- Replacing the unique entry of key `c` in a key-unique list leaves
`(c, v)` as the only entry of that key. -/
theorem filter_replace_eq (l : List (String × PyVal)) (c : String) (v : PyVal)
    (h : (l.map Prod.fst).Nodup) (hc : l.any (fun kv => kv.1 == c) = true) :
    (l.map (fun kv => if kv.1 == c then (c, v) else kv)).filter
        (fun kv => kv.1 == c) = [(c, v)] := by
  induction l with
  | nil => simp at hc
  | cons kv rest ih =>
    simp only [List.map_cons] at h
    have hnd := List.nodup_cons.mp h
    by_cases hk : (kv.1 == c) = true
    · have hkey : kv.1 = c := eq_of_beq hk
      have hnotin : ∀ kv' ∈ rest, (kv'.1 == c) = false := by
        intro kv' hkv'
        by_contra hb
        rw [Bool.not_eq_false, beq_iff_eq] at hb
        apply hnd.1
        rw [hkey]
        rw [← hb]
        exact List.mem_map_of_mem Prod.fst hkv'
      have hrest : ((rest.map (fun kv' => if kv'.1 == c then (c, v) else kv')).filter
          (fun kv' => kv'.1 == c)) = [] := by
        rw [List.filter_eq_nil_iff]
        intro a ha
        obtain ⟨kv', hkv', rfl⟩ := List.mem_map.mp ha
        simp [hnotin kv' hkv']
      have hcc : (((c, v) : String × PyVal).1 == c) = true := by simp
      simp only [List.map_cons, if_pos hk, List.filter_cons, hcc, if_true, hrest]
    · have hany : rest.any (fun kv' => kv'.1 == c) = true := by
        rcases List.any_eq_true.mp hc with ⟨kv', hkv', hp⟩
        rcases List.mem_cons.mp hkv' with h1 | h1
        · exact absurd (h1 ▸ hp) hk
        · exact List.any_eq_true.mpr ⟨kv', h1, hp⟩
      have h2 : (kv.1 == c) = false := by
        cases hb : (kv.1 == c) with
        | true => exact absurd hb hk
        | false => rfl
      simp only [List.map_cons, if_neg hk, List.filter_cons, h2,
        Bool.false_eq_true, if_false]
      exact ih hnd.2 hany

/-- Assigning key `c` into a key-unique dict makes `(c, v)` the only entry
of key `c`. -/
theorem filter_updateAssoc_eq (m : List (String × PyVal)) (c : String) (v : PyVal)
    (h : (m.map Prod.fst).Nodup) :
    (updateAssoc m c v).filter (fun kv => kv.1 == c) = [(c, v)] := by
  unfold updateAssoc
  by_cases hc : m.any (fun kv => kv.1 == c) = true
  · rw [if_pos hc]
    exact filter_replace_eq m c v h hc
  · rw [if_neg hc, List.filter_append]
    have hnone : m.filter (fun kv => kv.1 == c) = [] := by
      rw [List.filter_eq_nil_iff]
      intro kv hkv hb
      exact hc (List.any_eq_true.mpr ⟨kv, hkv, hb⟩)
    simp [hnone]

/-- Folding one dict into the accumulator preserves key uniqueness. -/
theorem updateAll_keys_nodup (d : List (String × PyVal)) (m : List (String × PyVal))
    (h : (m.map Prod.fst).Nodup) :
    (((d.foldl (fun m kv => updateAssoc m kv.1 kv.2) m)).map Prod.fst).Nodup := by
  induction d generalizing m with
  | nil => exact h
  | cons kv rest ih => exact ih _ (updateAssoc_keys_nodup _ _ _ h)

/-- Folding a list of dicts into the accumulator preserves key
uniqueness. -/
theorem updateAll_keys_nodup_list (l : List (List (String × PyVal)))
    (m : List (String × PyVal)) (h : (m.map Prod.fst).Nodup) :
    ((l.foldl (fun m d => d.foldl (fun m kv => updateAssoc m kv.1 kv.2) m) m).map
      Prod.fst).Nodup := by
  induction l generalizing m with
  | nil => exact h
  | cons d rest ih => exact ih _ (updateAll_keys_nodup d m h)

/-- The merge loop of `update_data` yields a dict with unique keys. -/
theorem update_merged_keys_nodup (ds : List (List (String × PyVal))) :
    ((update_merged ds).map Prod.fst).Nodup :=
  updateAll_keys_nodup_list ds [] (by simp)

/-- Folding dicts that never mention key `c` does not change the entries
of key `c`. -/
theorem filter_foldl_ne (l : List (List (String × PyVal))) (m : List (String × PyVal))
    (c : String) (h : ∀ d ∈ l, ∀ kv ∈ d, kv.1 ≠ c) :
    ((l.foldl (fun m d => d.foldl (fun m kv => updateAssoc m kv.1 kv.2) m) m).filter
        (fun kv => kv.1 == c)) = m.filter (fun kv => kv.1 == c) := by
  have aux : ∀ (d : List (String × PyVal)) (m : List (String × PyVal)),
      (∀ kv ∈ d, kv.1 ≠ c) →
      ((d.foldl (fun m kv => updateAssoc m kv.1 kv.2) m).filter (fun kv => kv.1 == c)) =
        m.filter (fun kv => kv.1 == c) := by
    intro d
    induction d with
    | nil => intro m _; rfl
    | cons kv rest ih =>
      intro m hd
      rw [List.foldl_cons, ih _ (fun kv' h' => hd kv' (List.mem_cons_of_mem kv h')),
        filter_updateAssoc_ne _ _ _ _ (hd kv (List.mem_cons_self kv rest))]
  induction l generalizing m with
  | nil => rfl
  | cons d rest ih =>
    rw [List.foldl_cons, ih _ (fun d' h' => h d' (List.mem_cons_of_mem d h')),
      aux d m (h d (List.mem_cons_self d rest))]

/-- The `SET`-parts loop in closed form. -/
theorem update_set_parts_eq (m : List (String × PyVal)) :
    update_set_parts m = m.map (fun kv => setPart kv.1 kv.2) := by
  have aux : ∀ (l : List (String × PyVal)) (acc : List String),
      l.foldl (fun acc kv => acc ++ [setPart kv.1 kv.2]) acc =
        acc ++ l.map (fun kv => setPart kv.1 kv.2) := by
    intro l
    induction l with
    | nil => intro acc; simp
    | cons kv rest ih => intro acc; simp [ih]
  simpa [update_set_parts] using aux m []

/-! ## Claim theorems -/

/-- C2: for a config section with N declared columns of which K carry the
`*` marker, the generated statement is exactly
`CREATE TABLE IF NOT EXISTS <t> (<def1>, ..., <defN>)` when K = 0 — the
trailing separator stripped, no PRIMARY KEY clause — and exactly
`CREATE TABLE IF NOT EXISTS <t> (<def1>, ..., <defN>, PRIMARY KEY (<pk1>,
..., <pkK>))` when K > 0: all N definitions in declaration order and one
PRIMARY KEY clause listing the K marked names in declaration order.
Hypotheses: declared types are nonempty and do not end in a comma or
space (an INI parser never yields such a value), and stripped column
names contain no space (so `split(' ')[0]` recovers the name). -/
theorem create_table_statement_ok (t : String) (cfg : List (String × String))
    (hval : ∀ kv ∈ cfg, kv.2.data ≠ [] ∧
      kv.2.data.getLast? ≠ some ',' ∧ kv.2.data.getLast? ≠ some ' ')
    (hname : ∀ kv ∈ cfg, ∀ c ∈ (pyStripStar kv.1).data, c ≠ ' ') :
    create_table_command t (_parse_table_config cfg) =
      if (cfg.filter (fun kv => startsStar kv.1)).isEmpty then
        "CREATE TABLE IF NOT EXISTS " ++ t ++ " (" ++
          pyJoin ", " (cfg.map (fun kv => pyStripStar kv.1 ++ " " ++ kv.2)) ++ ")"
      else
        "CREATE TABLE IF NOT EXISTS " ++ t ++ " (" ++
          pyJoin ", " (cfg.map (fun kv => pyStripStar kv.1 ++ " " ++ kv.2)) ++
          ", PRIMARY KEY (" ++
          pyJoin ", "
            ((cfg.filter (fun kv => startsStar kv.1)).map (fun kv => pyStripStar kv.1)) ++
          "))" := by
  have hdefs : ∀ kv ∈ cfg, (pyStripStar kv.1 ++ " " ++ kv.2).data ≠ [] := by
    intro kv _ hc
    simp only [String.data_append] at hc
    rcases List.append_eq_nil.mp hc with ⟨hc1, -⟩
    rcases List.append_eq_nil.mp hc1 with ⟨-, hsp⟩
    exact absurd hsp (by simp)
  have hlast : ∀ kv ∈ cfg, ∀ c,
      (pyStripStar kv.1 ++ " " ++ kv.2).data.getLast? = some c →
      ([',', ' '] : List Char).contains c = false := by
    intro kv hkv c hc
    obtain ⟨hne, hc1, hc2⟩ := hval kv hkv
    rw [def_getLast? _ _ hne] at hc
    have d1 : c ≠ ',' := fun h => hc1 (h ▸ hc)
    have d2 : c ≠ ' ' := fun h => hc2 (h ▸ hc)
    simp [List.contains_cons, d1, d2]
  simp only [create_table_command, _parse_table_config, foldl_cols, foldl_pks,
    List.nil_append, List.map_map, List.filter_map]
  have hmapfst : (cfg.map
      ((fun l => l.1) ∘ fun kv => (pyStripStar kv.1 ++ " " ++ kv.2, startsStar kv.1))) =
      cfg.map (fun kv => pyStripStar kv.1 ++ " " ++ kv.2) := rfl
  have hfiltp : (cfg.filter
      ((fun l => l.2) ∘ fun kv => (pyStripStar kv.1 ++ " " ++ kv.2, startsStar kv.1))) =
      cfg.filter (fun kv => startsStar kv.1) := rfl
  have hpkmap : ((cfg.filter (fun kv => startsStar kv.1)).map
      ((fun l => pySplitHead l.1) ∘ fun kv => (pyStripStar kv.1 ++ " " ++ kv.2, startsStar kv.1))) =
      (cfg.filter (fun kv => startsStar kv.1)).map (fun kv => pyStripStar kv.1) := by
    apply List.map_congr_left
    intro kv hkv
    exact pySplitHead_def _ _ (hname kv (List.mem_of_mem_filter hkv))
  rw [hmapfst, hfiltp, hpkmap]
  have hie : ((cfg.filter (fun kv => startsStar kv.1)).map
      (fun kv => pyStripStar kv.1)).isEmpty =
      (cfg.filter (fun kv => startsStar kv.1)).isEmpty := by
    cases cfg.filter (fun kv => startsStar kv.1) <;> rfl
  rw [hie]
  by_cases hK : (cfg.filter (fun kv => startsStar kv.1)).isEmpty = true
  · -- K = 0: the rstrip branch
    rw [if_pos hK, if_pos hK]
    cases hcfg : cfg.map (fun kv => pyStripStar kv.1 ++ " " ++ kv.2) with
    | nil =>
      -- no columns at all: the base string ends in '(' and rstrip strips nothing
      simp only [colTrail, String.append_empty]
      rw [pyRstrip_no_strip]
      · simp [pyJoin, String.append_assoc]
      · intro c hc
        simp only [String.data_append] at hc
        rw [getLast?_append_right _ _ (by decide)] at hc
        have h3 : (" (" : String).data.getLast? = some '(' := by decide
        rw [h3] at hc
        have hcl : c = '(' := (Option.some.inj hc).symm
        rw [hcl]
        decide
    | cons d ds =>
      have hmem : ∀ e ∈ (d :: ds), e.data ≠ [] := by
        rw [← hcfg]
        intro e he
        obtain ⟨kv, hkv, rfl⟩ := List.mem_map.mp he
        exact hdefs kv hkv
      have hlastmem : ∀ e ∈ (d :: ds), ∀ c, e.data.getLast? = some c →
          ([',', ' '] : List Char).contains c = false := by
        rw [← hcfg]
        intro e he
        obtain ⟨kv, hkv, rfl⟩ := List.mem_map.mp he
        exact hlast kv hkv
      have hngoal : ∀ c,
          (("CREATE TABLE IF NOT EXISTS " ++ t ++ " (") ++
            pyJoin ", " (d :: ds)).data.getLast? = some c →
          ([',', ' '] : List Char).contains c = false := by
        intro c hc
        rw [String.data_append,
          getLast?_append_right _ _
            (pyJoin_data_ne_nil d ds (hmem d (List.mem_cons_self d ds)))] at hc
        obtain ⟨e, he, heq⟩ := pyJoin_getLast? d ds hmem
        rw [heq] at hc
        exact hlastmem e he c hc
      rw [colTrail_eq_join, ← String.append_assoc]
      rw [pyRstrip_append_all _ _ _ (by decide), pyRstrip_no_strip _ _ hngoal]
  · -- K > 0: the PRIMARY KEY branch
    rw [if_neg hK, if_neg hK]
    cases hcfg : cfg.map (fun kv => pyStripStar kv.1 ++ " " ++ kv.2) with
    | nil =>
      exfalso
      have : cfg = [] := by
        cases cfg with
        | nil => rfl
        | cons a l => simp at hcfg
      rw [this] at hK
      exact hK rfl
    | cons d ds =>
      rw [colTrail_eq_join]
      apply strExt
      have d1 : (", PRIMARY KEY (" : String).data =
          (", " : String).data ++ ("PRIMARY KEY (" : String).data := by decide
      have d2 : ("))" : String).data = (")" : String).data ++ (")" : String).data := by
        decide
      simp [String.data_append, d1, d2, List.append_assoc]

/-- C2 witness: the spec's own example section, with one marked column. -/
theorem create_table_statement_witness :
    create_table_command "example_table"
      (_parse_table_config [("*id", "INTEGER"), ("name", "TEXT"), ("age", "INTEGER")]) =
      "CREATE TABLE IF NOT EXISTS example_table " ++
        "(id INTEGER, name TEXT, age INTEGER, PRIMARY KEY (id))" := by
  have h := create_table_statement_ok "example_table"
    [("*id", "INTEGER"), ("name", "TEXT"), ("age", "INTEGER")]
    (by decide) (by decide)
  rw [h]
  decide

/-- C1: `execute_query`, for every statement outcome (the oracle `execR` is
the engine applied to the statement text and optional positional
parameters), on success commits the new state, fetches all pending rows and
returns them as dicts paired with `true`; on any failure — of the execute,
commit or fetch step — it rolls back (the returned connection has
`current = committed`) and returns `([], false)`. -/
theorem execute_query_contract (c : Conn)
    (execR : DB → Except String (DB × List Row)) (ce fe : Option String) :
    (∀ cur' rows, execR c.current = .ok (cur', rows) → ce = none → fe = none →
        execute_query c execR ce fe =
          ({ committed := cur', current := cur' }, rows.map pyDict, true)) ∧
    (∀ e, execR c.current = .error e →
        execute_query c execR ce fe =
          ({ committed := c.committed, current := c.committed }, [], false)) ∧
    (∀ cur' rows s, execR c.current = .ok (cur', rows) → ce = some s →
        execute_query c execR ce fe =
          ({ committed := c.committed, current := c.committed }, [], false)) ∧
    (∀ cur' rows s, execR c.current = .ok (cur', rows) → ce = none → fe = some s →
        execute_query c execR ce fe =
          ({ committed := cur', current := cur' }, [], false)) := by
  refine ⟨?_, ?_, ?_, ?_⟩
  · intro cur' rows hx hc hf
    simp [execute_query, hx, hc, hf]
  · intro e hx
    simp [execute_query, hx]
  · intro cur' rows s hx hc
    simp [execute_query, hx, hc]
  · intro cur' rows s hx hc hf
    simp [execute_query, hx, hc, hf]

/-- C1 witness: a concrete successful call and a concrete failing call. -/
theorem execute_query_contract_witness :
    execute_query ⟨[], []⟩ (fun db => .ok (db ++ [[("id", .pint 1)]], [])) none none =
      ({ committed := [[("id", .pint 1)]], current := [[("id", .pint 1)]] }, [], true) ∧
    execute_query ⟨[[("id", .pint 1)]], [[("id", .pint 1)]]⟩
        (fun _ => .error "no such table") none none =
      ({ committed := [[("id", .pint 1)]], current := [[("id", .pint 1)]] }, [], false) := by
  constructor
  · exact (execute_query_contract ⟨[], []⟩
      (fun db => .ok (db ++ [[("id", .pint 1)]], [])) none none).1 _ _ rfl rfl rfl
  · exact (execute_query_contract ⟨[[("id", .pint 1)]], [[("id", .pint 1)]]⟩
      (fun _ => .error "no such table") none none).2.1 _ rfl

/-- C10: `execute_query` is total — every exception of the execute, commit
and fetch steps is caught by its bare `except Exception` handler — and
every call returns either fetched rows with `true` or `([], false)`; in
both cases the connection is left with no pending uncommitted change. -/
theorem execute_query_never_raises (c : Conn)
    (execR : DB → Except String (DB × List Row)) (ce fe : Option String) :
    (∃ d rows, execute_query c execR ce fe = (d, rows, true) ∧ d.current = d.committed) ∨
    (∃ d, execute_query c execR ce fe = (d, [], false) ∧ d.current = d.committed) := by
  unfold execute_query
  cases hx : execR c.current with
  | error e => exact Or.inr ⟨_, rfl, rfl⟩
  | ok p =>
    cases ce with
    | some s => exact Or.inr ⟨_, rfl, rfl⟩
    | none =>
      cases fe with
      | some s => exact Or.inr ⟨_, rfl, rfl⟩
      | none => exact Or.inl ⟨_, _, rfl, rfl⟩

/-- C4 counterexample: the string "a\n" (a letter followed by a newline)
contains whitespace and is not in the language of `^[A-Za-z_][A-Za-z0-9_]*$`
read as a whole-string pattern, yet `sanitize_identifier` returns it
unchanged instead of raising: Python's `$` also matches just before a
trailing newline. -/
theorem sanitize_identifier_cex :
    sanitize_identifier "a\n" = .ok "a\n" ∧
    specIdentPattern ("a\n").data = false ∧
    ("a\n").data.contains '\n' = true := by
  refine ⟨?_, by decide, by decide⟩
  have h : reMatchIdent ("a\n").data = true := by decide
  simp [sanitize_identifier, h]

/-- C7: in `update_data`'s merge of single-key mappings, when two mappings
assign the same column and the later one is the last assignment to it, the
merged dict holds the later value as its unique entry for that column, the
earlier pair is gone, and the later value's `SET` item is among the
generated `SET` parts. -/
theorem update_merge_later_wins
    (l1 l2 l3 : List (List (String × PyVal))) (c : String) (v1 v2 : PyVal)
    (hv : v1 ≠ v2)
    (h3 : ∀ d ∈ l3, ∀ kv ∈ d, kv.1 ≠ c) :
    (update_merged (l1 ++ [[(c, v1)]] ++ l2 ++ [[(c, v2)]] ++ l3)).filter
        (fun kv => kv.1 == c) = [(c, v2)] ∧
    (c, v1) ∉ update_merged (l1 ++ [[(c, v1)]] ++ l2 ++ [[(c, v2)]] ++ l3) ∧
    setPart c v2 ∈ update_set_parts
      (update_merged (l1 ++ [[(c, v1)]] ++ l2 ++ [[(c, v2)]] ++ l3)) := by
  have hfilter : (update_merged (l1 ++ [[(c, v1)]] ++ l2 ++ [[(c, v2)]] ++ l3)).filter
      (fun kv => kv.1 == c) = [(c, v2)] := by
    unfold update_merged
    rw [List.foldl_append, List.foldl_append, List.foldl_append, List.foldl_append]
    rw [filter_foldl_ne l3 _ c h3]
    have hm3nodup : (((l2.foldl (fun m d => d.foldl (fun m kv => updateAssoc m kv.1 kv.2) m)
        ([[(c, v1)]].foldl (fun m d => d.foldl (fun m kv => updateAssoc m kv.1 kv.2) m)
          (l1.foldl (fun m d => d.foldl (fun m kv => updateAssoc m kv.1 kv.2) m) [])))).map
        Prod.fst).Nodup := by
      apply updateAll_keys_nodup_list
      apply updateAll_keys_nodup_list
      apply updateAll_keys_nodup_list
      simp
    have hsingle : ∀ (m : List (String × PyVal)),
        [[(c, v2)]].foldl (fun m d => d.foldl (fun m kv => updateAssoc m kv.1 kv.2) m) m =
          updateAssoc m c v2 := fun m => rfl
    rw [hsingle]
    exact filter_updateAssoc_eq _ c v2 hm3nodup
  refine ⟨hfilter, ?_, ?_⟩
  · intro hmem
    have : (c, v1) ∈ (update_merged (l1 ++ [[(c, v1)]] ++ l2 ++ [[(c, v2)]] ++ l3)).filter
        (fun kv => kv.1 == c) := List.mem_filter.mpr ⟨hmem, by simp⟩
    rw [hfilter] at this
    simp only [List.mem_singleton, Prod.mk.injEq] at this
    exact hv this.2
  · have : (c, v2) ∈ update_merged (l1 ++ [[(c, v1)]] ++ l2 ++ [[(c, v2)]] ++ l3) := by
      apply List.mem_of_mem_filter (p := fun kv => kv.1 == c)
      rw [hfilter]
      exact List.mem_singleton.mpr rfl
    rw [update_set_parts_eq]
    exact List.mem_map_of_mem (fun kv => setPart kv.1 kv.2) this

/-- C7 witness: `[{a: 1}, {b: "x"}, {a: 2}]` merges with the later `a`
value 2 winning. -/
theorem update_merge_later_wins_witness :
    (update_merged ([] ++ [[("a", PyVal.pint 1)]] ++ [[("b", PyVal.pstr "x")]] ++
        [[("a", PyVal.pint 2)]] ++ [])).filter (fun kv => kv.1 == "a") =
      [("a", PyVal.pint 2)] ∧
    ("a", PyVal.pint 1) ∉ update_merged ([] ++ [[("a", PyVal.pint 1)]] ++
        [[("b", PyVal.pstr "x")]] ++ [[("a", PyVal.pint 2)]] ++ []) ∧
    setPart "a" (PyVal.pint 2) ∈ update_set_parts
      (update_merged ([] ++ [[("a", PyVal.pint 1)]] ++ [[("b", PyVal.pstr "x")]] ++
        [[("a", PyVal.pint 2)]] ++ [])) :=
  update_merge_later_wins [] [[("b", PyVal.pstr "x")]] [] "a" (PyVal.pint 1)
    (PyVal.pint 2) (by decide) (by decide)

/-- C4 (amended): `sanitize_identifier` returns its argument unchanged
exactly on the strings of `^[A-Za-z_][A-Za-z0-9_]*$` together with those
same strings extended by one trailing newline (Python `$`); every other
string — including the empty string, strings starting with a digit, and
strings containing `;`, a quote, `--`, or any other whitespace — makes it
raise `ValueError`. -/
theorem sanitize_identifier_amended (s : String) :
    (sanitize_identifier s = .ok s ↔
      (specIdentPattern s.data = true ∨
        ∃ core, s.data = core ++ ['\n'] ∧ specIdentPattern core = true)) ∧
    (sanitize_identifier s = .ok s ∨
      sanitize_identifier s = .error ("Invalid identifier: " ++ s)) := by
  cases hb : reMatchIdent s.data with
  | true =>
    refine ⟨?_, Or.inl (by simp [sanitize_identifier, hb])⟩
    rw [← reMatchIdent_iff, hb]
    simp [sanitize_identifier, hb]
  | false =>
    refine ⟨?_, Or.inr (by simp [sanitize_identifier, hb])⟩
    rw [← reMatchIdent_iff, hb]
    simp [sanitize_identifier, hb]

/-- After any `execute_query` call the connection carries no pending
uncommitted change: the statement was committed or rolled back. -/
theorem exec_balanced (c : Conn) (execR : DB → Except String (DB × List Row))
    (ce fe : Option String) :
    (execute_query c execR ce fe).1.current = (execute_query c execR ce fe).1.committed := by
  unfold execute_query
  cases execR c.current with
  | error e => rfl
  | ok p =>
    cases ce with
    | some s => rfl
    | none =>
      cases fe with
      | some s => rfl
      | none => rfl

/-- C8: the INSERT statement inlines every value in argument order by
type — strings single-quoted, `None` as `NULL`, anything else via its
`str` form — and the values live in the statement text itself, not in a
bind-parameter tuple (`insert_data` passes none). -/
theorem insert_query_inlines_values (name : String) (cols : List String)
    (vals : List PyVal) :
    insert_query name cols vals =
      "INSERT INTO " ++ name ++ " (" ++ pyJoin ", " cols ++ ") VALUES (" ++
        pyJoin ", " (vals.map formatValue) ++ ")" ∧
    (∀ s, formatValue (.pstr s) = sq ++ s ++ sq) ∧
    formatValue .pnone = "NULL" ∧
    (∀ i : Int, formatValue (.pint i) = toString i) ∧
    (∀ b : Bool, formatValue (.pbool b) = if b then "True" else "False") := by
  refine ⟨?_, fun s => rfl, rfl, fun i => rfl, fun b => rfl⟩
  have aux : ∀ (l : List PyVal) (acc : List String),
      l.foldl (fun acc v => acc ++ [formatValue v]) acc = acc ++ l.map formatValue := by
    intro l
    induction l with
    | nil => intro acc; simp
    | cons v rest ih => intro acc; simp [ih]
  simp [insert_query, aux]

/-- C3 (the code evaluated at the failing input): with the engine
rejecting the statement, `delete_data` and `update_data` still return
`True` — their `try` bodies cannot raise because `execute_query` swallows
the error, and both ignore its `(rows, flag)` result — while `insert_data`
returns `False`; in all three calls the connection (committed and cursor
state alike) is left exactly as before, so the row count is unchanged. -/
theorem mutation_error_flags_cex :
    delete_data ⟨"t", false, ⟨[[("id", PyVal.pint 1)]], [[("id", PyVal.pint 1)]]⟩⟩
        (fun _ _ _ => .error "no such column: nonexistent") none none
        "nonexistent" (PyVal.pint 1) =
      (⟨"t", false, ⟨[[("id", PyVal.pint 1)]], [[("id", PyVal.pint 1)]]⟩⟩,
        "Data deleted successfully", true) ∧
    update_data ⟨"t", false, ⟨[[("id", PyVal.pint 1)]], [[("id", PyVal.pint 1)]]⟩⟩
        (fun _ _ _ => .error "no such column: nonexistent") none none
        [[("nonexistent", PyVal.pint 5)]] "id=1" =
      (⟨"t", false, ⟨[[("id", PyVal.pint 1)]], [[("id", PyVal.pint 1)]]⟩⟩,
        "Data updated successfully.", true) ∧
    insert_data ⟨"t", false, ⟨[[("id", PyVal.pint 1)]], [[("id", PyVal.pint 1)]]⟩⟩
        (fun _ _ _ => .error "no such column: nonexistent") ["nonexistent"] [PyVal.pint 5] =
      (⟨"t", false, ⟨[[("id", PyVal.pint 1)]], [[("id", PyVal.pint 1)]]⟩⟩,
        "Insertion failed, rolled back. Error: no such column: nonexistent", false) ∧
    rowCount [[("id", PyVal.pint 1)]] = 1 := by
  refine ⟨rfl, rfl, rfl, rfl⟩

/-- C5 counterexample: a successful `insert_data` leaves the committed
state untouched (the write is only on the cursor side), while the same
statement run through `execute_query` would have been committed. -/
theorem insert_not_committed_cex :
    insert_data ⟨"t", false, ⟨[], []⟩⟩
        (fun _ _ db => .ok (db ++ [[("id", PyVal.pint 1)]], [])) ["id"] [PyVal.pint 1] =
      (⟨"t", false, ⟨[], [[("id", PyVal.pint 1)]]⟩⟩, "Data inserted successfully.", true) ∧
    execute_query ⟨[], []⟩ (fun db => .ok (db ++ [[("id", PyVal.pint 1)]], [])) none none =
      (⟨[[("id", PyVal.pint 1)]], [[("id", PyVal.pint 1)]]⟩, [], true) :=
  ⟨rfl, rfl⟩

/-- C5 (amended): every operation other than `insert_data` runs its
statement through `execute_query`, and so ends with a balanced connection
— the statement's transaction committed on success or rolled back on
failure, a self-contained unit.  `insert_data` instead calls
`cursor.execute` directly and never commits: whatever the outcome, the
committed state is untouched by the call. -/
theorem ops_route_through_executor (h : Helper) (eng : Engine) (ce fe : Option String) :
    (∀ cols whereC, (select_data h eng ce fe cols whereC).1.conn.current =
        (select_data h eng ce fe cols whereC).1.conn.committed) ∧
    (∀ col v, (delete_data h eng ce fe col v).1.conn.current =
        (delete_data h eng ce fe col v).1.conn.committed) ∧
    (∀ ds w, (update_data h eng ce fe ds w).1.conn.current =
        (update_data h eng ce fe ds w).1.conn.committed) ∧
    (∀ col, (select_min h eng ce fe col).1.conn.current =
        (select_min h eng ce fe col).1.conn.committed) ∧
    (∀ col, (select_max h eng ce fe col).1.conn.current =
        (select_max h eng ce fe col).1.conn.committed) ∧
    (∀ col, (select_avg h eng ce fe col).1.conn.current =
        (select_avg h eng ce fe col).1.conn.committed) ∧
    (∀ w r, count h eng ce fe w = .ok r → r.1.conn.current = r.1.conn.committed) ∧
    (∀ cols vals, (insert_data h eng cols vals).1.conn.committed = h.conn.committed) := by
  refine ⟨?_, ?_, ?_, ?_, ?_, ?_, ?_, ?_⟩
  · intro cols whereC
    simpa [select_data, pyTruthyPair] using
      exec_balanced h.conn (eng (select_query h.db_name cols whereC) none) ce fe
  · intro col v
    simpa [delete_data] using
      exec_balanced h.conn (eng (delete_query h.db_name col) (some [v])) ce fe
  · intro ds w
    simpa [update_data] using
      exec_balanced h.conn (eng (update_query h.db_name ds w) none) ce fe
  · intro col
    simpa [select_min] using
      exec_balanced h.conn (eng (select_min_query h.db_name col) none) ce fe
  · intro col
    simpa [select_max] using
      exec_balanced h.conn (eng (select_max_query h.db_name col) none) ce fe
  · intro col
    simpa [select_avg] using
      exec_balanced h.conn (eng (select_avg_query h.db_name col) none) ce fe
  · intro w r hr
    unfold count at hr
    simp only [pyTruthyPair, if_true] at hr
    split at hr
    · exact absurd hr (by simp)
    · split at hr
      · simp only [Except.ok.injEq] at hr
        rw [← hr]
        exact exec_balanced h.conn (eng (count_query h.db_name w) none) ce fe
      · exact absurd hr (by simp)
  · intro cols vals
    cases heng : eng (insert_query h.db_name cols vals) none h.conn.current with
    | ok p =>
      obtain ⟨cur', rows⟩ := p
      simp [insert_data, heng]
    | error e =>
      simp [insert_data, heng]

/-- C6 (the code evaluated at the failing input): when the statement
fails, `execute_query` returns `([], False)`; the pair is a nonempty
tuple, hence truthy, so `count` takes the subscript branch and
`data[0][0]` raises `IndexError` instead of returning 0.  On success the
`total` value of the single row is returned. -/
theorem count_raises_on_failure_cex :
    count ⟨"t", false, ⟨[], []⟩⟩ (fun _ _ _ => .error "no such column: nonexistent")
        none none (some "nonexistent > 0") =
      .error "IndexError: list index out of range" ∧
    count ⟨"t", false, ⟨[], []⟩⟩ (fun _ _ db => .ok (db, [[("total", PyVal.pint 0)]]))
        none none none =
      .ok (⟨"t", false, ⟨[], []⟩⟩, PyVal.pint 0) := by
  refine ⟨rfl, rfl⟩

/-- C9 (amended): no caller-supplied identifier is validated anywhere:
`sanitize_identifier` is defined but never invoked by any operation.  For
every string `col` — matching the identifier pattern or not —
`delete_data` and the aggregate operations interpolate it verbatim into
the statement text, execute that statement, and return their normal
results; no validation failure exists before the statement reaches the
engine. -/
theorem identifiers_not_validated (h : Helper) (eng : Engine) (ce fe : Option String)
    (col : String) (v : PyVal) :
    delete_query h.db_name col =
      "DELETE FROM " ++ h.db_name ++ " WHERE " ++ col ++ " = ?" ∧
    select_min_query h.db_name col = "SELECT MIN(" ++ col ++ ") FROM " ++ h.db_name ∧
    select_max_query h.db_name col = "SELECT MAX(" ++ col ++ ") FROM " ++ h.db_name ∧
    select_avg_query h.db_name col = "SELECT AVG(" ++ col ++ ") FROM " ++ h.db_name ∧
    (delete_data h eng ce fe col v).2 = ("Data deleted successfully", true) ∧
    (select_min h eng ce fe col).2.2 = true :=
  ⟨rfl, rfl, rfl, rfl, rfl, rfl⟩

/-- C9 counterexample: an injection-shaped column name that the sanitizer
would reject is interpolated raw into the DELETE statement, the engine
receives and executes exactly that text (the oracle here records the
statement it was given), and the call reports success — no validation
failure is raised before the statement is sent. -/
theorem unsanitized_identifier_reaches_engine_cex :
    sanitize_identifier "x; DROP TABLE t" =
      .error "Invalid identifier: x; DROP TABLE t" ∧
    delete_data ⟨"t", false, ⟨[], []⟩⟩
        (fun q _ db => .ok (db ++ [[("executed", PyVal.pstr q)]], [])) none none
        "x; DROP TABLE t" (PyVal.pint 1) =
      (⟨"t", false,
          ⟨[[("executed", PyVal.pstr "DELETE FROM t WHERE x; DROP TABLE t = ?")]],
            [[("executed", PyVal.pstr "DELETE FROM t WHERE x; DROP TABLE t = ?")]]⟩⟩,
        "Data deleted successfully", true) := by
  constructor
  · have hm : reMatchIdent ("x; DROP TABLE t").data = false := by decide
    simp [sanitize_identifier, hm]
  · rfl

end SQLiteHelper
